import Mathlib

/-!
Shallow embedding of `flare` (src/flare/core.py), a Cloudflare tunnel
wrapper. Pure string manipulation is embedded directly; the HTTP control
plane is embedded by passing the remote responses (status code plus parsed
body, with `none` standing for a body whose JSON parse raises) as explicit
inputs, and the teardown coordinator is embedded as explicit state passing
over a record of the remote cloud state plus local effects, with an
explicit fault model for the exception/non-200 branches the code contains.
Debug-only printing in the source is omitted throughout.
-/

namespace Flare

/-! ### Python string primitives

`pySplit c s` is Python's `s.split(c)` for a one-character separator:
no collapsing of empty fields, `"".split(c) == [""]`.
`strContains s c` is Python's `c in s`; `strStarts p s` is Python's
`s.startswith(p)`. All are structural so that concrete runs reduce in the
kernel. -/

def splitCharAux (c : Char) : List Char → List (List Char)
  | [] => [[]]
  | x :: xs =>
    let r := splitCharAux c xs
    if x = c then [] :: r
    else
      match r with
      | [] => [[x]]
      | y :: ys => (x :: y) :: ys

def pySplit (c : Char) (s : String) : List String :=
  (splitCharAux c s.data).map (fun l => String.mk l)

def strContains (s : String) (c : Char) : Bool :=
  s.data.contains c

def strStartsAux : List Char → List Char → Bool
  | [], _ => true
  | _ :: _, [] => false
  | a :: as, b :: bs => a == b && strStartsAux as bs

def strStarts (p s : String) : Bool :=
  strStartsAux p.data s.data

/-! ### Decimal rendering of naturals

Python's `str(int)` for a nonnegative int, i.e. `f"{timestamp}"` and
`f"{port}"` in the source. Implemented with structural fuel so concrete
values reduce in the kernel. -/

def digitsLE : Nat → Nat → List Nat
  | 0, _ => []
  | fuel + 1, n => if n < 10 then [n] else (n % 10) :: digitsLE fuel (n / 10)

def digitChr (d : Nat) : Char := Char.ofNat (48 + d)

def natStr (n : Nat) : String :=
  String.mk (((digitsLE (n + 1) n).reverse).map digitChr)

/-! ### Credential resolver: `get_headers` (core.py lines 24-42)

The source returns a header dict; we embed the three observable shapes.
A Python `ValueError` from the tuple unpacking `email, key =
api_key.split(':')` (split not yielding exactly two parts) is embedded as
`.error valueErrorMsg`; in `main` this is caught by the blanket
`except Exception` and turns into exit code 1. -/

inductive HeaderSet where
  | emailKey (email key : String)
  | bearer (token : String)
deriving DecidableEq

def valueErrorMsg : String := "ValueError: unpack"

def get_headers (apiKey : String) : Except String HeaderSet :=
  if strContains apiKey '@' || strContains apiKey '.' then
    match pySplit ':' apiKey with
    | [email, key] => .ok (.emailKey email key)
    | _ => .error valueErrorMsg
  else
    .ok (.bearer apiKey)

/-! ### Tunnel naming (core.py lines 607-622)

`random.choices(string.ascii_lowercase, k=8)` is embedded as a list of
draws in `Fin 26`; the name computation itself is deterministic in the
draws, the clock reading and the CLI arguments. -/

def randomLowercaseName (draws : List (Fin 26)) : String :=
  String.mk (draws.map (fun i => Char.ofNat ('a'.toNat + i.val)))

def computeTunnelName (tunnelNameArg : Option String) (noTimestamp : Bool)
    (timestamp : Nat) (randName : String) : String :=
  match tunnelNameArg with
  | none => randName
  | some base => if noTimestamp then base else base ++ "-" ++ natStr timestamp

/-! ### DNS / zone data and the zones response

`ZonesResponse.body = none` embeds a response whose `.json()` call raises
(non-JSON or malformed body); the source catches that and falls back. -/

structure DnsRecord where
  id : String
  name : String
deriving DecidableEq

structure ZoneRecs where
  id : String
  name : String
  records : List DnsRecord
deriving DecidableEq

structure ZonesResponse where
  status : Nat
  body : Option (List ZoneRecs)
deriving DecidableEq

/-- `get_account_domain` (core.py lines 321-357): on a 200 response with a
non-empty zone list, the first zone's name; in every other case (non-200,
body whose parse raises, empty list) the default `"trycloudflare.com"`.
The `try/except` in the source means the function never raises; it is
embedded as a total function. -/
def get_account_domain (resp : ZonesResponse) : String :=
  if resp.status == 200 then
    match resp.body with
    | some zones =>
      match zones with
      | z :: _ => z.name
      | [] => "trycloudflare.com"
    | none => "trycloudflare.com"
  else
    "trycloudflare.com"

/-! ### Tunnel configuration: `create_tunnel_config` (core.py lines 237-319)

The function computes the hostname from the tunnel name and the discovered
domain, PUTs an ingress configuration of exactly two rules, and POSTs
exactly one CNAME DNS-record creation request (to the hardcoded zone).
`dnsRequests` records the DNS-record creation requests issued; `ttl = 1`
is the provider's encoding of "auto" (source comment `# Auto`). -/

structure IngressRule where
  hostname : Option String
  service : String
deriving DecidableEq

structure DnsPayload where
  rtype : String
  name : String
  content : String
  ttl : Nat
  proxied : Bool
deriving DecidableEq

structure TunnelConfigResult where
  hostname : String
  ingress : List IngressRule
  dnsRequests : List DnsPayload
deriving DecidableEq

def create_tunnel_config (zonesResp : ZonesResponse) (tunnelId tunnelName : String)
    (port : Nat) (localAddr : String) : TunnelConfigResult :=
  let domain := get_account_domain zonesResp
  let hostname := tunnelName ++ "." ++ domain
  { hostname := hostname
    ingress :=
      [ { hostname := some hostname, service := "http://" ++ localAddr ++ ":" ++ natStr port }
      , { hostname := none, service := "http_status:404" } ]
    dnsRequests :=
      [ { rtype := "CNAME", name := tunnelName, content := tunnelId ++ ".cfargotunnel.com"
        , ttl := 1, proxied := true } ] }

/-! ### Provisioning: `create_tunnel_with_credentials` (core.py lines 142-235)

Embeds the tunnel-create response and the run-token response as inputs and
records the observable effects: a `sys.exit` code (if any), whether the
token file was written, and the returned `(tunnel_id, token_file)` pair.
Python falsiness of `result.get("id")` / `.get("result")` (absent or empty
string) is modelled by the `Option` plus the `isEmpty` check. -/

structure ApiResponse where
  status : Nat
  resultId : Option String
deriving DecidableEq

structure TokenResponse where
  status : Nat
  token : Option String
deriving DecidableEq

structure ProvisionEffects where
  exitCode : Option Nat
  tokenFileWritten : Bool
  value : Option (String × String)
deriving DecidableEq

def tokenFileName (tid : String) : String :=
  "/tmp/cloudflared_token_" ++ tid ++ ".txt"

def create_tunnel_with_credentials (createResp : ApiResponse) (tokenResp : TokenResponse) :
    ProvisionEffects :=
  if createResp.status ≠ 200 then ⟨some 1, false, none⟩
  else
    match createResp.resultId with
    | none => ⟨some 1, false, none⟩
    | some tid =>
      if tid.isEmpty then ⟨some 1, false, none⟩
      else if tokenResp.status ≠ 200 then ⟨some 1, false, none⟩
      else
        match tokenResp.token with
        | none => ⟨some 1, false, none⟩
        | some tok =>
          if tok.isEmpty then ⟨some 1, false, none⟩
          else ⟨none, true, some (tid, tokenFileName tid)⟩

/-! ### The provisioning phase of `main` (core.py lines 582-663)

`mainRun` chains tunnel naming, tunnel creation with credentials, and
tunnel configuration exactly as `main` does, and records whether the
`cloudflared` subprocess was launched. A `sys.exit(1)` raised inside
`create_tunnel_with_credentials` is a `SystemExit`, which the
`except requests.RequestException` / `except Exception` clauses of `main`
do not catch, so the process exits with that code; at that point the
`atexit` cleanup is not yet registered and `run_cloudflared` is never
called. Account discovery (`get_account_id`) precedes all of this and can
itself exit; it is not needed by any claim and is omitted. -/

structure MainEffects where
  exitCode : Option Nat
  tokenFileWritten : Bool
  subprocessLaunched : Bool
  dnsRequests : List DnsPayload
  hostname : Option String
  tunnelName : String
deriving DecidableEq

def mainRun (tunnelNameArg : Option String) (noTimestamp : Bool) (timestamp : Nat)
    (draws : List (Fin 26)) (port : Nat) (localAddr : String)
    (createResp : ApiResponse) (tokenResp : TokenResponse) (zonesResp : ZonesResponse) :
    MainEffects :=
  let tname := computeTunnelName tunnelNameArg noTimestamp timestamp (randomLowercaseName draws)
  let p := create_tunnel_with_credentials createResp tokenResp
  match p.value with
  | some (tid, _tokenFile) =>
    let cfg := create_tunnel_config zonesResp tid tname port localAddr
    { exitCode := none, tokenFileWritten := p.tokenFileWritten, subprocessLaunched := true
      dnsRequests := cfg.dnsRequests, hostname := some cfg.hostname, tunnelName := tname }
  | none =>
    { exitCode := p.exitCode, tokenFileWritten := p.tokenFileWritten, subprocessLaunched := false
      dnsRequests := [], hostname := none, tunnelName := tname }

/-! ### Teardown model

The remote cloud state holds the zones (with their DNS records) and the
tunnel object; the run state adds the local effects (token file,
subprocess) and counters of the HTTP calls the teardown code issues.
`Faults` switches each failure branch the source contains: `...Raises`
makes the corresponding call raise an exception, `...Fails` makes it
return a non-200 status. `noFaults` is the nominal well-behaved API. -/

structure CloudState where
  zones : List ZoneRecs
  tunnelExists : Bool
deriving DecidableEq

structure RunState where
  cloud : CloudState
  tokenFileExists : Bool
  processRunning : Bool
  zoneListCalls : Nat
  dnsListCalls : Nat
  dnsDeleteCalls : Nat
  tunnelDeleteCalls : Nat
deriving DecidableEq

structure Faults where
  listZonesRaises : Bool
  listZonesFails : Bool
  listDnsRaises : Bool
  listDnsFails : Bool
  deleteDnsRaises : Bool
  deleteDnsFails : Bool
  deleteTunnelRaises : Bool
  deleteTunnelFails : Bool
  removeTokenRaises : Bool
  terminateRaises : Bool
deriving DecidableEq

def noFaults : Faults :=
  ⟨false, false, false, false, false, false, false, false, false, false⟩

def findZone (c : CloudState) (zid : String) : Option ZoneRecs :=
  c.zones.find? (fun z => z.id == zid)

def updateFirstZone (zid : String) (g : ZoneRecs → ZoneRecs) : List ZoneRecs → List ZoneRecs
  | [] => []
  | z :: zs => if z.id == zid then g z :: zs else z :: updateFirstZone zid g zs

/-- The provider's DNS-record listing for a zone: `none` is a 404/non-200
(unknown zone); with a name filter it returns the records whose name
equals the filter, mirroring `GET /zones/{id}/dns_records?name={n}`. -/
def CloudState.listDns (c : CloudState) (zid : String) (nameFilter : Option String) :
    Option (List DnsRecord) :=
  (findZone c zid).map (fun z =>
    match nameFilter with
    | some n => z.records.filter (fun r => r.name == n)
    | none => z.records)

/-- The provider's DNS-record deletion: 200 (`true`) exactly when the
record id exists in the zone, in which case it is removed. -/
def CloudState.deleteDns (c : CloudState) (zid rid : String) : CloudState × Bool :=
  match findZone c zid with
  | none => (c, false)
  | some z =>
    if z.records.any (fun r => r.id == rid) then
      let erase := fun (w : ZoneRecs) => { w with records := w.records.filter (fun r => !(r.id == rid)) }
      ({ c with zones := updateFirstZone zid erase c.zones }, true)
    else (c, false)

/-- The provider's tunnel deletion: 200 (`true`) exactly when the tunnel
object still exists, in which case it is removed. -/
def CloudState.deleteTunnelObj (c : CloudState) : CloudState × Bool :=
  if c.tunnelExists then ({ c with tunnelExists := false }, true) else (c, false)

def pyTruthyStr (o : Option String) : Bool :=
  match o with
  | none => false
  | some s => !s.isEmpty

/-- The inner loop of `delete_tunnel_and_dns` deleting each record of a
listing snapshot by id (core.py lines 416-434 and 446-466). `acc` threads
the outer `dns_records_deleted` counter; a raised exception (`.error`)
aborts the loop carrying the state and count reached so far, to be caught
by the per-zone `except`. -/
def deleteRecordsSeq (f : Faults) (zid : String) :
    List DnsRecord → RunState → Nat → Except (RunState × Nat) (RunState × Nat)
  | [], st, acc => .ok (st, acc)
  | r :: rest, st, acc =>
    let st1 := { st with dnsDeleteCalls := st.dnsDeleteCalls + 1 }
    if f.deleteDnsRaises then .error (st1, acc)
    else
      let pr := if f.deleteDnsFails then (st1.cloud, false) else st1.cloud.deleteDns zid r.id
      deleteRecordsSeq f zid rest { st1 with cloud := pr.1 } (if pr.2 then acc + 1 else acc)

/-- Body of the per-zone `try` of `delete_tunnel_and_dns` (core.py lines
403-466): an exact-name listing pass deleting its matches, then — only
when the tunnel name contains no dot — a full listing pass deleting every
record whose name starts with `tname ++ "."` or equals `tname`. `.error`
is a raised exception escaping the body. -/
def processZoneBody (f : Faults) (tname zid : String) (st : RunState) (acc : Nat) :
    Except (RunState × Nat) (RunState × Nat) :=
  let st1 := { st with dnsListCalls := st.dnsListCalls + 1 }
  if f.listDnsRaises then .error (st1, acc)
  else
    let resp := if f.listDnsFails then none else st1.cloud.listDns zid (some tname)
    let step1 :=
      match resp with
      | some targets => deleteRecordsSeq f zid targets st1 acc
      | none => .ok (st1, acc)
    match step1 with
    | .error e => .error e
    | .ok pr =>
      if strContains tname '.' then .ok pr
      else
        let st3 := { pr.1 with dnsListCalls := pr.1.dnsListCalls + 1 }
        let resp2 := if f.listDnsFails then none else st3.cloud.listDns zid none
        match resp2 with
        | some allRecs =>
          let targets := allRecs.filter (fun r => strStarts (tname ++ ".") r.name || r.name == tname)
          deleteRecordsSeq f zid targets st3 pr.2
        | none => .ok (st3, pr.2)

/-- The per-zone `try/except`: a raised exception is caught (only debug
printing happens in the handler), so the loop continues from the state and
count reached at the raise point. -/
def processZone (f : Faults) (tname zid : String) (st : RunState) (acc : Nat) : RunState × Nat :=
  match processZoneBody f tname zid st acc with
  | .ok r => r
  | .error r => r

/-- The `for zone in all_zones` loop over the zone-listing snapshot. -/
def processZones (f : Faults) (tname : String) :
    List ZoneRecs → RunState → Nat → RunState × Nat
  | [], st, acc => (st, acc)
  | z :: zs, st, acc =>
    let pr := processZone f tname z.id st acc
    processZones f tname zs pr.1 pr.2

def fallbackZones (zoneId : Option String) : List ZoneRecs :=
  match zoneId with
  | some z => [⟨z, "unknown", []⟩]
  | none => []

/-- The DNS-deletion loop followed by the tunnel-deletion `try` block
(core.py lines 396-496), acting on the zone-listing snapshot `allZones`. -/
def dtadCore (f : Faults) (tname : String) (allZones : List ZoneRecs) (st0 : RunState) :
    RunState × Nat :=
  let pr := processZones f tname allZones st0 0
  let st1 := { pr.1 with tunnelDeleteCalls := pr.1.tunnelDeleteCalls + 1 }
  let st2 :=
    if f.deleteTunnelRaises then st1
    else if f.deleteTunnelFails then st1
    else { st1 with cloud := (st1.cloud.deleteTunnelObj).1 }
  (st2, pr.2)

/-- `delete_tunnel_and_dns` (core.py lines 359-496). The zone enumeration
`try/except` assigns `all_zones = []` only after the HTTP call, so when
that call raises and `zone_id` is falsy, the later `if not all_zones`
reads an unassigned variable: a `NameError` escapes the function (there is
no enclosing handler), embedded as `.error`. On success it returns the
final state and the accumulated `dns_records_deleted` count; DNS-phase and
tunnel-phase errors are contained by their own `try/except` blocks. -/
def delete_tunnel_and_dns (f : Faults) (tname : String) (zoneId : Option String)
    (st : RunState) : Except RunState (RunState × Nat) :=
  let st0 := { st with zoneListCalls := st.zoneListCalls + 1 }
  let enum : Option (List ZoneRecs) :=
    if f.listZonesRaises then
      if pyTruthyStr zoneId then some (fallbackZones zoneId) else none
    else if f.listZonesFails then
      some (if pyTruthyStr zoneId then fallbackZones zoneId else [])
    else some st0.cloud.zones
  match enum with
  | none => .error st0
  | some allZones0 =>
    let allZones :=
      if allZones0.isEmpty && pyTruthyStr zoneId then fallbackZones zoneId else allZones0
    .ok (dtadCore f tname allZones st0)

def hardcodedZoneId : String := "a2dbaff918c783a734197864e6cb7190"

/-- The `cleanup` closure of `run_cloudflared` (core.py lines 525-537):
remove the token file if present, terminate the subprocess if running,
then delete the remote resources, passing the hardcoded zone id. The first
two steps are NOT wrapped in any `try/except`: an exception raised there
(`.error`) escapes `cleanup` and skips everything after it. -/
def cleanupTail (f : Faults) (tname : String) (st1 : RunState) :
    Except RunState (RunState × Nat) :=
  if st1.processRunning then
    if f.terminateRaises then .error st1
    else delete_tunnel_and_dns f tname (some hardcodedZoneId) { st1 with processRunning := false }
  else delete_tunnel_and_dns f tname (some hardcodedZoneId) st1

def cleanup (f : Faults) (tname : String) (st : RunState) :
    Except RunState (RunState × Nat) :=
  if st.tokenFileExists then
    if f.removeTokenRaises then .error st
    else cleanupTail f tname { st with tokenFileExists := false }
  else cleanupTail f tname st

/-- One invocation of `cleanup`, keeping the state it reached whether or
not it raised. -/
def runCleanupState (f : Faults) (tname : String) (st : RunState) : RunState :=
  match cleanup f tname st with
  | .ok r => r.1
  | .error s => s

/-- Both registered teardown triggers firing in sequence in one run: the
SIGINT handler (core.py lines 543-549) invokes `cleanup()` and then calls
`sys.exit(0)`, whereupon the interpreter runs the `atexit`-registered
`cleanup` (line 540) a second time — the source has no one-shot guard. -/
def signalThenAtexit (f : Faults) (tname : String) (st : RunState) : RunState :=
  runCleanupState f tname (runCleanupState f tname st)

/-! ### Teardown specification helpers (used to state the C4 theorems)

`teardownMatch` is the predicate actually deleted by the code's two
passes; `zoneFilter`/`zoneMatchCount` describe the per-zone effect. -/

def teardownMatch (tname rname : String) : Bool :=
  rname == tname || (!(strContains tname '.') && strStarts (tname ++ ".") rname)

def zoneFilter (tname : String) (z : ZoneRecs) : ZoneRecs :=
  { z with records := z.records.filter (fun r => !(teardownMatch tname r.name)) }

def zoneMatchCount (tname : String) (z : ZoneRecs) : Nat :=
  (z.records.filter (fun r => teardownMatch tname r.name)).length

/-- The run state carried by either outcome of a teardown step. -/
def stateOf : Except (RunState × Nat) (RunState × Nat) → RunState
  | .ok p => p.1
  | .error p => p.1

/-- The local-effect fields of the run state that the DNS-deletion loops
never touch (used to show the later teardown steps still run). -/
def sameLocal (a b : RunState) : Prop :=
  b.tokenFileExists = a.tokenFileExists ∧ b.processRunning = a.processRunning ∧
  b.tunnelDeleteCalls = a.tunnelDeleteCalls ∧ b.zoneListCalls = a.zoneListCalls

/-! ### Concrete scenario states for the closed theorems -/

/-- A run right before teardown: one zone holding the tunnel's DNS record,
the tunnel object alive, the token file on disk, the subprocess running,
and no API calls issued yet. -/
def demoRunState : RunState :=
  ⟨⟨[⟨"z1", "example.com", [⟨"r1", "demo-1.example.com"⟩]⟩], true⟩, true, true, 0, 0, 0, 0⟩

/-- A teardown state whose tunnel name contains a dot and whose zone holds
a record extending that name with the zone's domain. -/
def dottedNameState : RunState :=
  ⟨⟨[⟨"z1", "example.com", [⟨"r1", "my.app.example.com"⟩]⟩], true⟩, false, false, 0, 0, 0, 0⟩

/-- Faults making only the token-file removal (`os.remove`) raise. -/
def removeTokenFaults : Faults :=
  { noFaults with removeTokenRaises := true }

/-! ## Theorems -/

/-! ### Decimal rendering is injective (distinct timestamps give distinct
suffixes) -/

lemma digitsLE_ne_nil (fuel n : Nat) : digitsLE (fuel + 1) n ≠ [] := by
  simp only [digitsLE]
  split <;> simp

lemma digitsLE_inj : ∀ f1 f2 m n : Nat, m < f1 → n < f2 →
    digitsLE f1 m = digitsLE f2 n → m = n := by
  intro f1
  induction f1 with
  | zero => intro f2 m n hm; omega
  | succ f ih =>
    intro f2 m n hm hn heq
    match f2, hn with
    | g + 1, hn =>
      simp only [digitsLE] at heq
      by_cases hm10 : m < 10 <;> by_cases hn10 : n < 10 <;>
        simp only [hm10, hn10, if_true, if_false, ite_true, ite_false, List.cons.injEq] at heq
      · exact heq.1
      · have hg : g = (g - 1) + 1 := by omega
        rw [hg] at heq
        have := digitsLE_ne_nil (g - 1) (n / 10)
        exact absurd heq.2.symm this
      · have hf : f = (f - 1) + 1 := by omega
        rw [hf] at heq
        have := digitsLE_ne_nil (f - 1) (m / 10)
        exact absurd heq.2 this
      · have hdm : m / 10 < m := Nat.div_lt_self (by omega) (by omega)
        have hdn : n / 10 < n := Nat.div_lt_self (by omega) (by omega)
        have hrec := ih g (m / 10) (n / 10) (by omega) (by omega) heq.2
        have h1 := Nat.div_add_mod m 10
        have h2 := Nat.div_add_mod n 10
        omega

lemma digitsLE_lt : ∀ (fuel n : Nat), ∀ d ∈ digitsLE fuel n, d < 10 := by
  intro fuel
  induction fuel with
  | zero => intro n d hd; simp [digitsLE] at hd
  | succ f ih =>
    intro n d hd
    simp only [digitsLE] at hd
    by_cases h10 : n < 10
    · rw [if_pos h10] at hd; simp at hd; omega
    · rw [if_neg h10] at hd
      rcases List.mem_cons.mp hd with h | h
      · subst h; exact Nat.mod_lt _ (by omega)
      · exact ih _ _ h

lemma digitChr_toNat (d : Nat) (h : d < 10) : (digitChr d).toNat = 48 + d := by
  interval_cases d <;> rfl

lemma map_digitChr_inj : ∀ l1 l2 : List Nat, (∀ d ∈ l1, d < 10) → (∀ d ∈ l2, d < 10) →
    l1.map digitChr = l2.map digitChr → l1 = l2 := by
  intro l1
  induction l1 with
  | nil => intro l2 _ _ h; cases l2 <;> simp_all
  | cons a as ih =>
    intro l2 h1 h2 h
    cases l2 with
    | nil => simp at h
    | cons b bs =>
      simp only [List.map_cons, List.cons.injEq] at h
      have ha : a < 10 := h1 a (by simp)
      have hb : b < 10 := h2 b (by simp)
      have hab : a = b := by
        have := congrArg Char.toNat h.1
        rw [digitChr_toNat a ha, digitChr_toNat b hb] at this
        omega
      have := ih bs (fun d hd => h1 d (by simp [hd])) (fun d hd => h2 d (by simp [hd])) h.2
      simp [hab, this]

lemma natStr_inj (m n : Nat) (h : natStr m = natStr n) : m = n := by
  have h2 : ((digitsLE (m + 1) m).reverse).map digitChr =
      ((digitsLE (n + 1) n).reverse).map digitChr := congrArg String.data h
  have h3 := map_digitChr_inj _ _
    (fun d hd => digitsLE_lt (m + 1) m d (List.mem_reverse.mp hd))
    (fun d hd => digitsLE_lt (n + 1) n d (List.mem_reverse.mp hd)) h2
  have h4 := List.reverse_injective h3
  exact digitsLE_inj (m + 1) (n + 1) m n (by omega) (by omega) h4

lemma append_natStr_inj (base : String) (t1 t2 : Nat)
    (h : base ++ "-" ++ natStr t1 = base ++ "-" ++ natStr t2) : t1 = t2 := by
  apply natStr_inj
  apply String.ext
  have h2 := congrArg String.data h
  simp only [String.data_append, List.append_assoc] at h2
  exact List.append_cancel_left (List.append_cancel_left h2)

lemma lowercase_chr (i : Fin 26) :
    'a' ≤ Char.ofNat ('a'.toNat + i.val) ∧ Char.ofNat ('a'.toNat + i.val) ≤ 'z' := by
  fin_cases i <;> decide

/-- C7: when a name is supplied and `--no-timestamp` is unset, the tunnel
name is the base name plus `"-<unix timestamp>"`, so runs started at
different times get different names; with `--no-timestamp` set the name is
exactly the base name; with no name supplied, the name is the randomly
drawn string, which has 8 characters, all lowercase letters. -/
theorem C7_tunnel_naming (base : String) (t1 t2 : Nat) (draws : List (Fin 26))
    (hne : t1 ≠ t2) (hlen : draws.length = 8) :
    computeTunnelName (some base) false t1 "" = base ++ "-" ++ natStr t1 ∧
    computeTunnelName (some base) false t1 "" ≠ computeTunnelName (some base) false t2 "" ∧
    computeTunnelName (some base) true t1 "" = base ∧
    computeTunnelName none false t1 (randomLowercaseName draws) = randomLowercaseName draws ∧
    (randomLowercaseName draws).length = 8 ∧
    (∀ c ∈ (randomLowercaseName draws).data, 'a' ≤ c ∧ c ≤ 'z') := by
  refine ⟨rfl, ?_, rfl, rfl, ?_, ?_⟩
  · intro h
    exact hne (append_natStr_inj base t1 t2 h)
  · simp [randomLowercaseName, String.length, hlen]
  · intro c hc
    simp only [randomLowercaseName, List.mem_map] at hc
    obtain ⟨i, _, rfl⟩ := hc
    exact lowercase_chr i

/-- C7 witness: names at timestamps 1 and 2 differ; with
`--no-timestamp`, the name is exactly the base name. -/
theorem C7_tunnel_naming_witness :
    computeTunnelName (some "demo") false 1 "" ≠ computeTunnelName (some "demo") false 2 "" ∧
    computeTunnelName (some "demo") true 1 "" = "demo" :=
  let h := C7_tunnel_naming "demo" 1 2 (List.replicate 8 0) (by decide) (by decide)
  ⟨h.2.1, h.2.2.1⟩

/-- C3 counterexample: the secret `"a.b:"` contains `'.'` and its split on
`':'` yields exactly two parts of which the second is empty; the claim says
the resolver must fail here, but `get_headers` returns the
X-Auth-Email/X-Auth-Key header set with an empty key. -/
theorem C3_counterexample :
    strContains "a.b:" '.' = true ∧
    pySplit ':' "a.b:" = ["a.b", ""] ∧
    get_headers "a.b:" = .ok (.emailKey "a.b" "") :=
  ⟨rfl, rfl, rfl⟩

/-- C3 (amended): for every secret string containing `'@'` or `'.'`, the
resolver splits it on `':'` and, when the split yields exactly two parts
(possibly empty), returns the X-Auth-Email/X-Auth-Key header set, and
otherwise fails with a `ValueError` that `main` turns into a configuration
error; for every string containing neither `'@'` nor `'.'`, the resolver
returns an Authorization: Bearer header set. -/
theorem C3_resolver_classification (s : String) :
    (strContains s '@' = false → strContains s '.' = false →
      get_headers s = .ok (.bearer s)) ∧
    ((strContains s '@' = true ∨ strContains s '.' = true) →
      (∀ e k, pySplit ':' s = [e, k] → get_headers s = .ok (.emailKey e k)) ∧
      ((pySplit ':' s).length ≠ 2 → get_headers s = .error valueErrorMsg)) := by
  constructor
  · intro h1 h2
    simp [get_headers, h1, h2]
  · intro h
    have hcond : (strContains s '@' || strContains s '.') = true := by
      rcases h with h | h <;> simp [h]
    constructor
    · intro e k hek
      simp [get_headers, hcond, hek]
    · intro hlen
      cases hsp : pySplit ':' s with
      | nil => simp [get_headers, hcond, hsp]
      | cons e rest =>
        cases rest with
        | nil => simp [get_headers, hcond, hsp]
        | cons k rest2 =>
          cases rest2 with
          | nil => rw [hsp] at hlen; simp at hlen
          | cons x rest3 => simp [get_headers, hcond, hsp]

/-- C3 witness: both branches of the amended claim at concrete inputs. -/
theorem C3_resolver_classification_witness :
    get_headers "a@b" = .error valueErrorMsg ∧ get_headers "tok" = .ok (.bearer "tok") :=
  ⟨((C3_resolver_classification "a@b").2 (Or.inl (by decide))).2 (by decide),
   (C3_resolver_classification "tok").1 (by decide) (by decide)⟩

/-- C8: if the account's zone listing succeeds (status 200) with a
non-empty result, the base domain is the first zone's name; if the zone
list is empty, the operation does not fail and the base domain is the
hardcoded default public domain `"trycloudflare.com"`. -/
theorem C8_domain_selection (z : ZoneRecs) (rest : List ZoneRecs) :
    get_account_domain ⟨200, some (z :: rest)⟩ = z.name ∧
    get_account_domain ⟨200, some []⟩ = "trycloudflare.com" :=
  ⟨rfl, rfl⟩

/-- C10: `get_account_domain` is total over all response outcomes: for
every zones response with a non-200 status, a malformed/non-JSON body, or
an empty zone list, it returns the non-empty fallback domain
`"trycloudflare.com"`; being a total Lean function over all modelled
responses, it never raises, so domain selection cannot abort
provisioning. -/
theorem C10_domain_total (resp : ZonesResponse)
    (h : resp.status ≠ 200 ∨ resp.body = none ∨ resp.body = some []) :
    get_account_domain resp = "trycloudflare.com" ∧ (get_account_domain resp).length ≠ 0 := by
  obtain ⟨st, body⟩ := resp
  have hres : get_account_domain ⟨st, body⟩ = "trycloudflare.com" := by
    rcases h with h | h | h
    · simp only at h
      simp [get_account_domain, h]
    · simp only at h
      subst h
      unfold get_account_domain
      split <;> rfl
    · simp only at h
      subst h
      unfold get_account_domain
      split <;> rfl
  exact ⟨hres, by rw [hres]; decide⟩

/-- C10 witness: a 404 response with an unparseable body yields the
fallback domain. -/
theorem C10_domain_total_witness :
    get_account_domain ⟨404, none⟩ = "trycloudflare.com" :=
  (C10_domain_total ⟨404, none⟩ (Or.inl (by decide))).1

/-- C9: every ingress configuration the tool writes contains exactly two
rules: the first maps the public hostname to the single local target
`http://<local_addr>:<port>`, and the last is the catch-all
`http_status:404` fallback. -/
theorem C9_ingress_invariant (zonesResp : ZonesResponse) (tid tname localAddr : String)
    (port : Nat) :
    (create_tunnel_config zonesResp tid tname port localAddr).ingress.length = 2 ∧
    (create_tunnel_config zonesResp tid tname port localAddr).ingress.head? =
      some ⟨some (create_tunnel_config zonesResp tid tname port localAddr).hostname,
            "http://" ++ localAddr ++ ":" ++ natStr port⟩ ∧
    (create_tunnel_config zonesResp tid tname port localAddr).ingress.getLast? =
      some ⟨none, "http_status:404"⟩ :=
  ⟨rfl, rfl, rfl⟩


/-- C2 counterexample: with first zone `example.com`, the public hostname
is `"demo-1700.example.com"` but the created DNS record's name field is
`"demo-1700"` (the bare tunnel name), which differs from the hostname —
contradicting the claim that the record's name equals the public
hostname. -/
theorem C2_counterexample :
    (create_tunnel_config ⟨200, some [⟨"z1", "example.com", []⟩]⟩ "tid123" "demo-1700" 8080 "localhost").hostname = "demo-1700.example.com" ∧
    (create_tunnel_config ⟨200, some [⟨"z1", "example.com", []⟩]⟩ "tid123" "demo-1700" 8080 "localhost").dnsRequests =
      [⟨"CNAME", "demo-1700", "tid123.cfargotunnel.com", 1, true⟩] ∧
    ("demo-1700" : String) ≠ "demo-1700.example.com" :=
  ⟨rfl, rfl, by decide⟩

lemma ctwc_success (tid tok : String) (htid : tid.isEmpty = false) (htok : tok.isEmpty = false) :
    create_tunnel_with_credentials ⟨200, some tid⟩ ⟨200, some tok⟩ =
      ⟨none, true, some (tid, tokenFileName tid)⟩ := by
  simp [create_tunnel_with_credentials, htid, htok]

/-- C2 (amended): the DNS record created during provisioning has
type=CNAME, proxied=true, ttl=1 (the API encoding of "auto"), target
`<tunnel_id>.cfargotunnel.com`, and its name field equal to the tunnel
name (not the full public hostname `<tunnelName>.<domain>` that is printed
as the public URL); exactly one such creation request is issued per
successful run. -/
theorem C2_dns_record (zonesResp : ZonesResponse) (tid tname localAddr tok : String)
    (port : Nat) (htid : tid.isEmpty = false) (htok : tok.isEmpty = false) :
    (create_tunnel_config zonesResp tid tname port localAddr).dnsRequests =
      [⟨"CNAME", tname, tid ++ ".cfargotunnel.com", 1, true⟩] ∧
    (create_tunnel_config zonesResp tid tname port localAddr).hostname =
      tname ++ "." ++ get_account_domain zonesResp ∧
    (mainRun (some tname) true 0 [] port localAddr ⟨200, some tid⟩ ⟨200, some tok⟩ zonesResp).dnsRequests =
      [⟨"CNAME", tname, tid ++ ".cfargotunnel.com", 1, true⟩] := by
  refine ⟨rfl, rfl, ?_⟩
  rw [mainRun, ctwc_success tid tok htid htok]
  rfl

/-- C2 witness: a successful run issues exactly the one expected DNS
creation request. -/
theorem C2_dns_record_witness :
    (mainRun (some "demo") true 0 [] 8080 "localhost" ⟨200, some "t1"⟩ ⟨200, some "tok"⟩
        ⟨200, some [⟨"z1", "example.com", []⟩]⟩).dnsRequests =
      [⟨"CNAME", "demo", "t1.cfargotunnel.com", 1, true⟩] :=
  (C2_dns_record ⟨200, some [⟨"z1", "example.com", []⟩]⟩ "t1" "demo" "localhost" "tok" 8080
    (by decide) (by decide)).2.2

lemma ctwc_token_fail (createResp : ApiResponse) (tokenResp : TokenResponse)
    (h : tokenResp.status ≠ 200) :
    create_tunnel_with_credentials createResp tokenResp = ⟨some 1, false, none⟩ := by
  unfold create_tunnel_with_credentials
  by_cases h1 : createResp.status ≠ 200
  · rw [if_pos h1]
  · rw [if_neg h1]
    cases createResp.resultId with
    | none => rfl
    | some tid =>
      by_cases h2 : tid.isEmpty
      · simp [h2]
      · simp [h2, h]

/-- C6: if the run-token fetch returns a non-200 status, the process
exits with code 1 (`sys.exit(1)` is not caught by `main`'s handlers), no
token file is written, and no cloudflared subprocess is launched. -/
theorem C6_token_fetch_failure (createResp : ApiResponse) (tokenResp : TokenResponse)
    (zonesResp : ZonesResponse) (tunnelNameArg : Option String) (noTimestamp : Bool)
    (timestamp : Nat) (draws : List (Fin 26)) (port : Nat) (localAddr : String)
    (h : tokenResp.status ≠ 200) :
    (mainRun tunnelNameArg noTimestamp timestamp draws port localAddr createResp tokenResp zonesResp).exitCode = some 1 ∧
    (mainRun tunnelNameArg noTimestamp timestamp draws port localAddr createResp tokenResp zonesResp).tokenFileWritten = false ∧
    (mainRun tunnelNameArg noTimestamp timestamp draws port localAddr createResp tokenResp zonesResp).subprocessLaunched = false := by
  rw [mainRun, ctwc_token_fail createResp tokenResp h]
  exact ⟨rfl, rfl, rfl⟩

/-- C6 witness: a 500 token response at concrete inputs. -/
theorem C6_token_fetch_failure_witness :
    (mainRun (some "demo") true 0 [] 8080 "localhost" ⟨200, some "t1"⟩ ⟨500, none⟩
        ⟨200, some []⟩).exitCode = some 1 ∧
    (mainRun (some "demo") true 0 [] 8080 "localhost" ⟨200, some "t1"⟩ ⟨500, none⟩
        ⟨200, some []⟩).subprocessLaunched = false :=
  let h := C6_token_fetch_failure ⟨200, some "t1"⟩ ⟨500, none⟩ ⟨200, some []⟩ (some "demo")
    true 0 [] 8080 "localhost" (by decide)
  ⟨h.1, h.2.2⟩

lemma sameLocal_refl (a : RunState) : sameLocal a a := ⟨rfl, rfl, rfl, rfl⟩

lemma sameLocal_trans {a b c : RunState} (h1 : sameLocal a b) (h2 : sameLocal b c) :
    sameLocal a c := by
  obtain ⟨x1, x2, x3, x4⟩ := h1
  obtain ⟨y1, y2, y3, y4⟩ := h2
  exact ⟨y1.trans x1, y2.trans x2, y3.trans x3, y4.trans x4⟩

lemma deleteRecordsSeq_local (f : Faults) (zid : String) :
    ∀ (rs : List DnsRecord) (st : RunState) (acc : Nat),
      sameLocal st (stateOf (deleteRecordsSeq f zid rs st acc)) := by
  intro rs
  induction rs with
  | nil => intro st acc; exact sameLocal_refl st
  | cons r rest ih =>
    intro st acc
    simp only [deleteRecordsSeq]
    cases hf : f.deleteDnsRaises with
    | true => exact ⟨rfl, rfl, rfl, rfl⟩
    | false =>
      simp only [Bool.false_eq_true, if_false, ite_false]
      exact sameLocal_trans ⟨rfl, rfl, rfl, rfl⟩ (ih _ _)

lemma processZonePhase2_local (f : Faults) (tname zid : String) (stp : RunState) (accp : Nat) :
    sameLocal stp (stateOf
      (if strContains tname '.' = true then Except.ok (stp, accp)
       else
         match if f.listDnsFails = true then none
           else CloudState.listDns { stp with dnsListCalls := stp.dnsListCalls + 1 }.cloud zid none with
         | some allRecs =>
           deleteRecordsSeq f zid
             (allRecs.filter (fun r => strStarts (tname ++ ".") r.name || r.name == tname))
             { stp with dnsListCalls := stp.dnsListCalls + 1 } accp
         | none => Except.ok ({ stp with dnsListCalls := stp.dnsListCalls + 1 }, accp))) := by
  cases hdot : strContains tname '.' with
  | true => exact sameLocal_refl stp
  | false =>
    simp only [Bool.false_eq_true, if_false, ite_false]
    cases hR2 : (if f.listDnsFails = true then none
        else CloudState.listDns { stp with dnsListCalls := stp.dnsListCalls + 1 }.cloud zid none) with
    | some allRecs =>
      exact sameLocal_trans ⟨rfl, rfl, rfl, rfl⟩ (deleteRecordsSeq_local f zid _ _ _)
    | none => exact ⟨rfl, rfl, rfl, rfl⟩

lemma processZoneBody_local (f : Faults) (tname zid : String) (st : RunState) (acc : Nat) :
    sameLocal st (stateOf (processZoneBody f tname zid st acc)) := by
  unfold processZoneBody
  cases hf : f.listDnsRaises with
  | true => exact ⟨rfl, rfl, rfl, rfl⟩
  | false =>
    simp only [Bool.false_eq_true, if_false, ite_false]
    cases hR : (if f.listDnsFails = true then none
        else st.cloud.listDns zid (some tname)) with
    | none =>
      exact sameLocal_trans ⟨rfl, rfl, rfl, rfl⟩ (processZonePhase2_local f tname zid _ acc)
    | some targets =>
      dsimp only
      have hloc := deleteRecordsSeq_local f zid targets
        { st with dnsListCalls := st.dnsListCalls + 1 } acc
      cases hs : deleteRecordsSeq f zid targets
          { st with dnsListCalls := st.dnsListCalls + 1 } acc with
      | error e =>
        rw [hs] at hloc
        exact sameLocal_trans ⟨rfl, rfl, rfl, rfl⟩ hloc
      | ok pr =>
        rw [hs] at hloc
        exact sameLocal_trans (sameLocal_trans ⟨rfl, rfl, rfl, rfl⟩ hloc)
          (processZonePhase2_local f tname zid pr.1 pr.2)

lemma processZone_local (f : Faults) (tname zid : String) (st : RunState) (acc : Nat) :
    sameLocal st (processZone f tname zid st acc).1 := by
  unfold processZone
  have h := processZoneBody_local f tname zid st acc
  cases hb : processZoneBody f tname zid st acc with
  | ok r => rw [hb] at h; exact h
  | error r => rw [hb] at h; exact h

lemma processZones_local (f : Faults) (tname : String) :
    ∀ (zs : List ZoneRecs) (st : RunState) (acc : Nat),
      sameLocal st (processZones f tname zs st acc).1 := by
  intro zs
  induction zs with
  | nil => intro st acc; exact sameLocal_refl st
  | cons z rest ih =>
    intro st acc
    simp only [processZones]
    exact sameLocal_trans (processZone_local f tname z.id st acc) (ih _ _)

lemma dtadCore_fields (f : Faults) (tname : String) (zs : List ZoneRecs) (st0 : RunState) :
    (dtadCore f tname zs st0).1.tokenFileExists = st0.tokenFileExists ∧
    (dtadCore f tname zs st0).1.processRunning = st0.processRunning ∧
    (dtadCore f tname zs st0).1.zoneListCalls = st0.zoneListCalls ∧
    (dtadCore f tname zs st0).1.tunnelDeleteCalls = st0.tunnelDeleteCalls + 1 := by
  obtain ⟨p1, p2, p3, p4⟩ := processZones_local f tname zs st0 0
  unfold dtadCore
  cases hdtr : f.deleteTunnelRaises with
  | true => simp [hdtr, p1, p2, p3, p4]
  | false =>
    cases hdtf : f.deleteTunnelFails with
    | true => simp [hdtr, hdtf, p1, p2, p3, p4]
    | false => simp [hdtr, hdtf, p1, p2, p3, p4]

lemma delete_tunnel_and_dns_runs (f : Faults) (tname zid : String) (st : RunState)
    (hz : zid.isEmpty = false) :
    ∃ st' n, delete_tunnel_and_dns f tname (some zid) st = .ok (st', n) ∧
      st'.tokenFileExists = st.tokenFileExists ∧
      st'.processRunning = st.processRunning ∧
      st'.zoneListCalls = st.zoneListCalls + 1 ∧
      st'.tunnelDeleteCalls = st.tunnelDeleteCalls + 1 := by
  have hpt : pyTruthyStr (some zid) = true := by simp [pyTruthyStr, hz]
  have hfin : ∀ zs : List ZoneRecs,
      ∃ st' n, (Except.ok (dtadCore f tname zs { st with zoneListCalls := st.zoneListCalls + 1 })
          : Except RunState (RunState × Nat)) = .ok (st', n) ∧
        st'.tokenFileExists = st.tokenFileExists ∧
        st'.processRunning = st.processRunning ∧
        st'.zoneListCalls = st.zoneListCalls + 1 ∧
        st'.tunnelDeleteCalls = st.tunnelDeleteCalls + 1 := by
    intro zs
    obtain ⟨q1, q2, q3, q4⟩ :=
      dtadCore_fields f tname zs { st with zoneListCalls := st.zoneListCalls + 1 }
    exact ⟨_, _, rfl, q1, q2, q3, q4⟩
  unfold delete_tunnel_and_dns
  cases h1 : f.listZonesRaises with
  | true =>
    simp only [h1, hpt, if_true, ite_true]
    exact hfin _
  | false =>
    cases h2 : f.listZonesFails with
    | true =>
      simp only [h1, h2, hpt, Bool.false_eq_true, if_false, if_true, ite_true, ite_false]
      split <;> exact hfin _
    | false =>
      simp only [h1, h2, hpt, Bool.false_eq_true, if_false, ite_false]
      split <;> exact hfin _


/-- C1 (code bug evidence): when both registered teardown triggers fire
in sequence — the SIGINT handler invoking `cleanup()` followed by the
`atexit`-registered `cleanup` at process exit — the teardown body executes
twice and the remote DELETE request for the tunnel object is issued twice
(`tunnelDeleteCalls = 2`), contradicting the claim's at-most-once
guarantee; the DNS-record DELETE happens to be issued only once because
the second run's listings find nothing, and only the first invocation
actually removes the tunnel. -/
theorem C1_double_teardown :
    (signalThenAtexit noFaults "demo-1" demoRunState).tunnelDeleteCalls = 2 ∧
    (signalThenAtexit noFaults "demo-1" demoRunState).dnsDeleteCalls = 1 ∧
    (runCleanupState noFaults "demo-1" demoRunState).cloud.tunnelExists = false ∧
    (runCleanupState noFaults "demo-1" demoRunState).tunnelDeleteCalls = 1 :=
  ⟨rfl, rfl, rfl, rfl⟩

/-- C5 counterexample: when the token-file removal (`os.remove`) raises,
the exception escapes `cleanup` (steps 1-2 are not wrapped in any
`try/except`), so no remaining teardown step runs: the subprocess is not
terminated, no zone listing, DNS deletion, or tunnel deletion request is
ever issued, and the tunnel object survives — contradicting the claim
that a failure in any one step does not prevent the remaining steps. -/
theorem C5_counterexample :
    cleanup removeTokenFaults "demo-1" demoRunState = .error demoRunState ∧
    demoRunState.processRunning = true ∧
    demoRunState.zoneListCalls = 0 ∧
    demoRunState.dnsDeleteCalls = 0 ∧
    demoRunState.tunnelDeleteCalls = 0 ∧
    demoRunState.cloud.tunnelExists = true ∧
    demoRunState.cloud.zones = [⟨"z1", "example.com", [⟨"r1", "demo-1.example.com"⟩]⟩] :=
  ⟨rfl, rfl, rfl, rfl, rfl, rfl, rfl⟩

/-- C5 (amended): the teardown steps inside `delete_tunnel_and_dns` —
zone enumeration, DNS-record deletion, tunnel deletion — are best-effort
and independently fault-tolerant: under every fault combination for those
steps (raised exceptions or non-200 responses), `cleanup` still completes
normally (`Except.ok`, so no exception can disturb the primary exit code),
the token file is removed, the subprocess is terminated, and the zone
listing and the tunnel-deletion call are still issued; however an
exception raised while deleting the token file or terminating the
subprocess aborts the remaining teardown steps (see the
counterexample). -/
theorem C5_teardown_fault_tolerance (f : Faults) (tname : String) (st : RunState)
    (h1 : f.removeTokenRaises = false) (h2 : f.terminateRaises = false) :
    ∃ st' n, cleanup f tname st = .ok (st', n) ∧
      st'.tokenFileExists = false ∧
      st'.processRunning = false ∧
      st'.zoneListCalls = st.zoneListCalls + 1 ∧
      st'.tunnelDeleteCalls = st.tunnelDeleteCalls + 1 := by
  have hz : hardcodedZoneId.isEmpty = false := rfl
  unfold cleanup cleanupTail
  cases htf : st.tokenFileExists with
  | true =>
    simp only [htf, h1, h2, Bool.false_eq_true, if_true, if_false, ite_true, ite_false]
    cases hpr : st.processRunning with
    | true =>
      simp only [hpr, if_true, ite_true]
      obtain ⟨st', n, heq, e1, e2, e3, e4⟩ := delete_tunnel_and_dns_runs f tname hardcodedZoneId
        { st with tokenFileExists := false, processRunning := false } hz
      exact ⟨st', n, heq, e1, e2, e3, e4⟩
    | false =>
      simp only [hpr, Bool.false_eq_true, if_false, ite_false]
      obtain ⟨st', n, heq, e1, e2, e3, e4⟩ := delete_tunnel_and_dns_runs f tname hardcodedZoneId
        { st with tokenFileExists := false, processRunning := false } hz
      exact ⟨st', n, heq, e1, e2, e3, e4⟩
  | false =>
    simp only [htf, h2, Bool.false_eq_true, if_false, ite_false]
    cases hpr : st.processRunning with
    | true =>
      simp only [hpr, if_true, ite_true]
      obtain ⟨st', n, heq, e1, e2, e3, e4⟩ := delete_tunnel_and_dns_runs f tname hardcodedZoneId
        { st with tokenFileExists := false, processRunning := false } hz
      exact ⟨st', n, heq, e1, e2, e3, e4⟩
    | false =>
      simp only [hpr, Bool.false_eq_true, if_false, ite_false]
      obtain ⟨st', n, heq, e1, e2, e3, e4⟩ := delete_tunnel_and_dns_runs f tname hardcodedZoneId
        st hz
      exact ⟨st', n, heq, by rw [e1]; exact htf, by rw [e2]; exact hpr, e3, e4⟩

/-- C5 witness: with DNS deletion raising and tunnel deletion returning
non-200, cleanup still runs every step. -/
theorem C5_teardown_fault_tolerance_witness :
    ∃ st' n, cleanup { noFaults with deleteDnsRaises := true, deleteTunnelFails := true }
        "demo-1" demoRunState = .ok (st', n) ∧
      st'.tokenFileExists = false ∧
      st'.processRunning = false ∧
      st'.zoneListCalls = demoRunState.zoneListCalls + 1 ∧
      st'.tunnelDeleteCalls = demoRunState.tunnelDeleteCalls + 1 :=
  C5_teardown_fault_tolerance { noFaults with deleteDnsRaises := true, deleteTunnelFails := true }
    "demo-1" demoRunState rfl rfl

lemma find?_first_zone (z : ZoneRecs) : ∀ (A B : List ZoneRecs),
    (z.id ∈ A.map (fun w => w.id) → False) →
    (A ++ z :: B).find? (fun w => w.id == z.id) = some z := by
  intro A
  induction A with
  | nil => intro B _; simp [List.find?]
  | cons a as ih =>
    intro B hA
    have hne : (a.id == z.id) = false := by
      rw [beq_eq_false_iff_ne]
      intro h
      exact hA (by simp [← h])
    simp only [List.cons_append, List.find?, hne]
    exact ih B (fun h => hA (by simp [List.map_cons, List.mem_cons]; right; simpa using h))

lemma updateFirstZone_at (g : ZoneRecs → ZoneRecs) (z : ZoneRecs) : ∀ (A B : List ZoneRecs),
    (z.id ∈ A.map (fun w => w.id) → False) →
    updateFirstZone z.id g (A ++ z :: B) = A ++ g z :: B := by
  intro A
  induction A with
  | nil => intro B _; simp [updateFirstZone]
  | cons a as ih =>
    intro B hA
    have hne : (a.id == z.id) = false := by
      rw [beq_eq_false_iff_ne]
      intro h
      exact hA (by simp [← h])
    simp only [List.cons_append, updateFirstZone, hne, Bool.false_eq_true, if_false, ite_false]
    exact congrArg (a :: ·) (ih B (fun h => hA (by simp [List.map_cons, List.mem_cons]; right; simpa using h)))

lemma findZone_at (c : CloudState) (A B : List ZoneRecs) (z : ZoneRecs)
    (hc : c.zones = A ++ z :: B) (hA : z.id ∈ A.map (fun w => w.id) → False) :
    findZone c z.id = some z := by
  unfold findZone
  rw [hc]
  exact find?_first_zone z A B hA


lemma deleteDns_at (c : CloudState) (A B : List ZoneRecs) (zid zname : String)
    (rs : List DnsRecord) (rid : String)
    (hc : c.zones = A ++ (⟨zid, zname, rs⟩ : ZoneRecs) :: B)
    (hA : zid ∈ A.map (fun w => w.id) → False)
    (hin : rid ∈ rs.map (fun r => r.id)) :
    c.deleteDns zid rid =
      (⟨A ++ (⟨zid, zname, rs.filter (fun r => !(r.id == rid))⟩ : ZoneRecs) :: B,
        c.tunnelExists⟩, true) := by
  unfold CloudState.deleteDns
  rw [findZone_at c A B ⟨zid, zname, rs⟩ hc hA]
  have hany : rs.any (fun r => r.id == rid) = true := by
    rw [List.any_eq_true]
    obtain ⟨r, hr, hrid⟩ := List.mem_map.mp hin
    exact ⟨r, hr, by simp [hrid]⟩
  simp only [hany, if_true, ite_true]
  rw [hc, updateFirstZone_at _ ⟨zid, zname, rs⟩ A B hA]

lemma mem_filtered_ids (rs : List DnsRecord) (hnd : (rs.map (fun r => r.id)).Nodup)
    (p : DnsRecord → Bool) (r : DnsRecord) (hr : r ∈ rs) :
    ((rs.filter p).map (fun r => r.id)).contains r.id = p r := by
  cases hp : p r with
  | true =>
    have : r.id ∈ (rs.filter p).map (fun r => r.id) :=
      List.mem_map_of_mem _ (List.mem_filter.mpr ⟨hr, hp⟩)
    simpa [List.elem_iff] using this
  | false =>
    rw [← Bool.not_eq_true]
    intro hcon
    rw [List.elem_iff] at hcon
    obtain ⟨r', hr', hid⟩ := List.mem_map.mp hcon
    have hr'mem := (List.mem_filter.mp hr').1
    have hr'p := (List.mem_filter.mp hr').2
    have : r' = r := List.inj_on_of_nodup_map hnd hr'mem hr hid
    rw [this] at hr'p
    rw [hr'p] at hp
    exact absurd hp (by simp)

lemma filter_ids_filter (rs : List DnsRecord) (hnd : (rs.map (fun r => r.id)).Nodup)
    (p : DnsRecord → Bool) :
    rs.filter (fun r => !(((rs.filter p).map (fun r => r.id)).contains r.id)) =
      rs.filter (fun r => !(p r)) := by
  apply List.filter_congr
  intro r hr
  rw [mem_filtered_ids rs hnd p r hr]

lemma length_filter_or (p q : DnsRecord → Bool) (l : List DnsRecord) :
    (l.filter p).length + (l.filter (fun a => q a && !(p a))).length =
      (l.filter (fun a => p a || q a)).length := by
  induction l with
  | nil => rfl
  | cons a as ih =>
    cases hp : p a <;> cases hq : q a <;>
      simp [List.filter_cons, hp, hq] <;> omega


lemma noFaults_proj :
    noFaults.listZonesRaises = false ∧ noFaults.listZonesFails = false ∧
    noFaults.listDnsRaises = false ∧ noFaults.listDnsFails = false ∧
    noFaults.deleteDnsRaises = false ∧ noFaults.deleteDnsFails = false ∧
    noFaults.deleteTunnelRaises = false ∧ noFaults.deleteTunnelFails = false ∧
    noFaults.removeTokenRaises = false ∧ noFaults.terminateRaises = false :=
  ⟨rfl, rfl, rfl, rfl, rfl, rfl, rfl, rfl, rfl, rfl⟩

lemma deleteRecordsSeq_nominal (zid zname : String) :
    ∀ (ts : List DnsRecord) (A B : List ZoneRecs) (rs : List DnsRecord)
      (st : RunState) (acc : Nat),
      st.cloud.zones = A ++ (⟨zid, zname, rs⟩ : ZoneRecs) :: B →
      (zid ∈ A.map (fun w => w.id) → False) →
      (rs.map (fun r => r.id)).Nodup →
      ((ts.map (fun r => r.id)).Nodup) →
      (∀ t ∈ ts, t.id ∈ rs.map (fun r => r.id)) →
      ∃ st', deleteRecordsSeq noFaults zid ts st acc = .ok (st', acc + ts.length) ∧
        st'.cloud = ⟨A ++ (⟨zid, zname,
            rs.filter (fun r => !((ts.map (fun t => t.id)).contains r.id))⟩ : ZoneRecs) :: B,
          st.cloud.tunnelExists⟩ := by
  intro ts
  induction ts with
  | nil =>
    intro A B rs st acc hc _ _ _ _
    refine ⟨st, rfl, ?_⟩
    have hfl : rs.filter
        (fun r => !((([] : List DnsRecord).map (fun t => t.id)).contains r.id)) = rs := by
      apply List.filter_eq_self.mpr
      intro r _
      rfl
    rw [hfl, ← hc]
  | cons t ts ih =>
    intro A B rs st acc hc hA hndrs hndts hpres
    simp only [deleteRecordsSeq, noFaults_proj.2.2.2.2.1, noFaults_proj.2.2.2.2.2.1,
      Bool.false_eq_true, if_false, ite_false]
    have hc1 : ({ st with dnsDeleteCalls := st.dnsDeleteCalls + 1 } : RunState).cloud.zones =
        A ++ (⟨zid, zname, rs⟩ : ZoneRecs) :: B := hc
    have hdel := deleteDns_at _ A B zid zname rs t.id hc1 hA (hpres t (by simp))
    rw [hdel]
    dsimp only
    have hndrs' : ((rs.filter (fun r => !(r.id == t.id))).map (fun r => r.id)).Nodup :=
      ((List.filter_sublist rs).map (fun r => r.id)).nodup hndrs
    have hndts' : (ts.map (fun r => r.id)).Nodup := by
      simpa using hndts.of_cons
    have htnotin : t.id ∉ ts.map (fun r => r.id) := by
      have := hndts
      simp only [List.map_cons, List.nodup_cons] at this
      exact this.1
    have hpres' : ∀ u ∈ ts, u.id ∈ (rs.filter (fun r => !(r.id == t.id))).map (fun r => r.id) := by
      intro u hu
      have hu1 := hpres u (by simp [hu])
      obtain ⟨r, hr, hrid⟩ := List.mem_map.mp hu1
      have hune : u.id ≠ t.id := by
        intro h
        exact htnotin (h ▸ List.mem_map_of_mem _ hu)
      refine List.mem_map.mpr ⟨r, List.mem_filter.mpr ⟨hr, ?_⟩, hrid⟩
      simp [hrid, hune]
    obtain ⟨st', heq, hcloud⟩ := ih A B (rs.filter (fun r => !(r.id == t.id)))
      (⟨⟨A ++ (⟨zid, zname, rs.filter (fun r => !(r.id == t.id))⟩ : ZoneRecs) :: B,
          st.cloud.tunnelExists⟩, st.tokenFileExists, st.processRunning, st.zoneListCalls,
        st.dnsListCalls, st.dnsDeleteCalls + 1, st.tunnelDeleteCalls⟩)
      (acc + 1) rfl hA hndrs' hndts' hpres'
    rw [if_pos rfl]
    refine ⟨st', ?_, ?_⟩
    · rw [heq]
      have : acc + 1 + ts.length = acc + (t :: ts).length := by
        simp [List.length_cons]
        omega
      rw [this]
    · rw [hcloud]
      have hrec : (rs.filter (fun r => !(r.id == t.id))).filter
            (fun r => !((ts.map (fun u => u.id)).contains r.id)) =
          rs.filter (fun r => !(((t :: ts).map (fun u => u.id)).contains r.id)) := by
        rw [List.filter_filter]
        apply List.filter_congr
        intro r _
        simp only [List.map_cons, List.contains_cons, Bool.not_or]
        rw [Bool.and_comm]
      rw [hrec]


lemma listDns_at (c : CloudState) (A B : List ZoneRecs) (zid zname : String)
    (rs : List DnsRecord) (nameFilter : Option String)
    (hc : c.zones = A ++ (⟨zid, zname, rs⟩ : ZoneRecs) :: B)
    (hA : zid ∈ A.map (fun w => w.id) → False) :
    c.listDns zid nameFilter = some (match nameFilter with
      | some n => rs.filter (fun r => r.name == n)
      | none => rs) := by
  unfold CloudState.listDns
  rw [findZone_at c A B ⟨zid, zname, rs⟩ hc hA]
  rfl

lemma processZone_nominal (tname zid zname : String) (rs : List DnsRecord)
    (A B : List ZoneRecs) (st : RunState) (acc : Nat)
    (hc : st.cloud.zones = A ++ (⟨zid, zname, rs⟩ : ZoneRecs) :: B)
    (hA : zid ∈ A.map (fun w => w.id) → False)
    (hnd : (rs.map (fun r => r.id)).Nodup) :
    ∃ st', processZone noFaults tname zid st acc =
        (st', acc + zoneMatchCount tname ⟨zid, zname, rs⟩) ∧
      st'.cloud = ⟨A ++ zoneFilter tname ⟨zid, zname, rs⟩ :: B, st.cloud.tunnelExists⟩ := by
  unfold processZone processZoneBody
  simp only [noFaults_proj.2.2.1, noFaults_proj.2.2.2.1, Bool.false_eq_true, if_false, ite_false]
  have hc1 : ({ st with dnsListCalls := st.dnsListCalls + 1 } : RunState).cloud.zones =
      A ++ (⟨zid, zname, rs⟩ : ZoneRecs) :: B := hc
  rw [listDns_at _ A B zid zname rs (some tname) hc hA]
  dsimp only
  have hnd1 : ((rs.filter (fun r => r.name == tname)).map (fun r => r.id)).Nodup :=
    ((List.filter_sublist rs).map (fun r => r.id)).nodup hnd
  have hpres1 : ∀ t ∈ rs.filter (fun r => r.name == tname), t.id ∈ rs.map (fun r => r.id) :=
    fun t ht => List.mem_map_of_mem _ (List.mem_filter.mp ht).1
  obtain ⟨st2, heq2, hcloud2⟩ := deleteRecordsSeq_nominal zid zname
    (rs.filter (fun r => r.name == tname)) A B rs
    { st with dnsListCalls := st.dnsListCalls + 1 } acc hc1 hA hnd hnd1 hpres1
  rw [heq2]
  dsimp only
  rw [filter_ids_filter rs hnd (fun r => r.name == tname)] at hcloud2
  cases hdot : strContains tname '.' with
  | true =>
    refine ⟨st2, ?_, ?_⟩
    · have hcnt : zoneMatchCount tname ⟨zid, zname, rs⟩ =
          (rs.filter (fun r => r.name == tname)).length := by
        unfold zoneMatchCount
        congr 1
        apply List.filter_congr
        intro r _
        simp [teardownMatch, hdot]
      rw [hcnt]
      rfl
    · rw [hcloud2]
      have hzf : zoneFilter tname ⟨zid, zname, rs⟩ =
          (⟨zid, zname, rs.filter (fun r => !(r.name == tname))⟩ : ZoneRecs) := by
        unfold zoneFilter
        simp only [ZoneRecs.mk.injEq, true_and]
        apply List.filter_congr
        intro r _
        simp [teardownMatch, hdot]
      rw [hzf]
  | false =>
    rw [if_neg Bool.false_ne_true]
    have hc2 : st2.cloud.zones =
        A ++ (⟨zid, zname, rs.filter (fun r => !(r.name == tname))⟩ : ZoneRecs) :: B := by
      rw [hcloud2]
    have hc3 : ({ st2 with dnsListCalls := st2.dnsListCalls + 1 } : RunState).cloud.zones =
        A ++ (⟨zid, zname, rs.filter (fun r => !(r.name == tname))⟩ : ZoneRecs) :: B := hc2
    rw [listDns_at _ A B zid zname (rs.filter (fun r => !(r.name == tname))) none hc3 hA]
    dsimp only
    have hnds : ((rs.filter (fun r => !(r.name == tname))).map (fun r => r.id)).Nodup :=
      ((List.filter_sublist rs).map (fun r => r.id)).nodup hnd
    have hnd2 : (((rs.filter (fun r => !(r.name == tname))).filter
          (fun r => strStarts (tname ++ ".") r.name || r.name == tname)).map
          (fun r => r.id)).Nodup :=
      ((List.filter_sublist (rs.filter (fun r => !(r.name == tname)))).map
        (fun r => r.id)).nodup hnds
    have hpres2 : ∀ t ∈ (rs.filter (fun r => !(r.name == tname))).filter
          (fun r => strStarts (tname ++ ".") r.name || r.name == tname),
        t.id ∈ (rs.filter (fun r => !(r.name == tname))).map (fun r => r.id) :=
      fun t ht => List.mem_map_of_mem _ (List.mem_filter.mp ht).1
    obtain ⟨st4, heq4, hcloud4⟩ := deleteRecordsSeq_nominal zid zname
      ((rs.filter (fun r => !(r.name == tname))).filter
        (fun r => strStarts (tname ++ ".") r.name || r.name == tname))
      A B (rs.filter (fun r => !(r.name == tname)))
      { st2 with dnsListCalls := st2.dnsListCalls + 1 }
      (acc + (rs.filter (fun r => r.name == tname)).length) hc3 hA hnds hnd2 hpres2
    rw [heq4]
    refine ⟨st4, ?_, ?_⟩
    · dsimp only
      have ht2 : (rs.filter (fun r => !(r.name == tname))).filter
            (fun r => strStarts (tname ++ ".") r.name || r.name == tname) =
          rs.filter (fun r => strStarts (tname ++ ".") r.name && !(r.name == tname)) := by
        rw [List.filter_filter]
        apply List.filter_congr
        intro r _
        cases h1 : (r.name == tname) <;> cases h2 : strStarts (tname ++ ".") r.name <;>
          simp [h1, h2]
      have hmc : rs.filter (fun r => teardownMatch tname r.name) =
          rs.filter (fun r => (r.name == tname) || strStarts (tname ++ ".") r.name) := by
        apply List.filter_congr
        intro r _
        simp [teardownMatch, hdot]
      have hlen := length_filter_or (fun r => r.name == tname)
        (fun r => strStarts (tname ++ ".") r.name) rs
      have hcnt : acc + (rs.filter (fun r => r.name == tname)).length +
            ((rs.filter (fun r => !(r.name == tname))).filter
              (fun r => strStarts (tname ++ ".") r.name || r.name == tname)).length =
          acc + zoneMatchCount tname ⟨zid, zname, rs⟩ := by
        unfold zoneMatchCount
        rw [ht2, hmc]
        omega
      rw [hcnt]
    · rw [hcloud4]
      rw [filter_ids_filter (rs.filter (fun r => !(r.name == tname))) hnds
        (fun r => strStarts (tname ++ ".") r.name || r.name == tname)]
      have hrec2 : (rs.filter (fun r => !(r.name == tname))).filter
            (fun r => !(strStarts (tname ++ ".") r.name || r.name == tname)) =
          rs.filter (fun r => !(teardownMatch tname r.name)) := by
        rw [List.filter_filter]
        apply List.filter_congr
        intro r _
        cases h1 : (r.name == tname) <;> cases h2 : strStarts (tname ++ ".") r.name <;>
          simp [teardownMatch, hdot, h1, h2]
      rw [hrec2]
      have hte : st2.cloud.tunnelExists = st.cloud.tunnelExists := by rw [hcloud2]
      rw [hte]
      rfl


lemma processZone_missing (tname zid : String) (st : RunState) (acc : Nat)
    (h : findZone st.cloud zid = none) :
    ∃ st', processZone noFaults tname zid st acc = (st', acc) ∧ st'.cloud = st.cloud := by
  unfold processZone processZoneBody
  simp only [noFaults_proj.2.2.1, noFaults_proj.2.2.2.1, Bool.false_eq_true, if_false, ite_false]
  have hld : st.cloud.listDns zid (some tname) = none := by
    unfold CloudState.listDns
    rw [h]
    rfl
  rw [hld]
  dsimp only
  cases hdot : strContains tname '.' with
  | true =>
    rw [if_pos rfl]
    exact ⟨_, rfl, rfl⟩
  | false =>
    rw [if_neg Bool.false_ne_true]
    have hld2 : st.cloud.listDns zid none = none := by
      unfold CloudState.listDns
      rw [h]
      rfl
    rw [hld2]
    exact ⟨_, rfl, rfl⟩

lemma zoneFilter_id (tname : String) (z : ZoneRecs) : (zoneFilter tname z).id = z.id := rfl

lemma processZones_nominal (tname : String) :
    ∀ (pending A : List ZoneRecs) (st : RunState) (acc : Nat),
      st.cloud.zones = A ++ pending →
      ((A ++ pending).map (fun w => w.id)).Nodup →
      (∀ z ∈ pending, (z.records.map (fun r => r.id)).Nodup) →
      ∃ st', processZones noFaults tname pending st acc =
          (st', acc + (pending.map (zoneMatchCount tname)).sum) ∧
        st'.cloud = ⟨A ++ pending.map (zoneFilter tname), st.cloud.tunnelExists⟩ := by
  intro pending
  induction pending with
  | nil =>
    intro A st acc hc _ _
    refine ⟨st, by simp [processZones], ?_⟩
    simp only [List.map_nil, List.append_nil]
    rw [List.append_nil] at hc
    rw [← hc]
  | cons z zs ih =>
    intro A st acc hc hndz hrec
    have hA : z.id ∈ A.map (fun w => w.id) → False := by
      intro hmem
      rw [List.map_append] at hndz
      have hdisj := (List.nodup_append.mp hndz).2.2
      exact hdisj hmem (by simp)
    have heta : (⟨z.id, z.name, z.records⟩ : ZoneRecs) = z := rfl
    obtain ⟨st2, heq2, hcloud2⟩ := processZone_nominal tname z.id z.name z.records A zs st acc
      (by rw [heta]; exact hc) hA (hrec z (by simp))
    rw [heta] at heq2 hcloud2
    have hc2 : st2.cloud.zones = (A ++ [zoneFilter tname z]) ++ zs := by
      rw [hcloud2]
      simp
    have hnd2 : (((A ++ [zoneFilter tname z]) ++ zs).map (fun w => w.id)).Nodup := by
      have hmapeq : ((A ++ [zoneFilter tname z]) ++ zs).map (fun w => w.id) =
          (A ++ z :: zs).map (fun w => w.id) := by
        simp [zoneFilter_id]
      rw [hmapeq]
      exact hndz
    obtain ⟨st3, heq3, hcloud3⟩ := ih (A ++ [zoneFilter tname z]) st2
      (acc + zoneMatchCount tname z) hc2 hnd2 (fun w hw => hrec w (by simp [hw]))
    refine ⟨st3, ?_, ?_⟩
    · simp only [processZones]
      rw [heq2]
      dsimp only
      rw [heq3]
      simp only [List.map_cons, List.sum_cons]
      have : acc + zoneMatchCount tname z + (zs.map (zoneMatchCount tname)).sum =
          acc + (zoneMatchCount tname z + (zs.map (zoneMatchCount tname)).sum) := by
        omega
      rw [this]
    · rw [hcloud3]
      have hte : st2.cloud.tunnelExists = st.cloud.tunnelExists := by rw [hcloud2]
      rw [hte]
      simp


lemma deleteTunnelObj_spec (c : CloudState) : (c.deleteTunnelObj).1 = ⟨c.zones, false⟩ := by
  obtain ⟨zs, te⟩ := c
  cases te <;> rfl

/-- C4 (amended): during teardown, for every zone scanned (any cloud
state whose zone ids and per-zone record ids are distinct, as the provider
guarantees), the coordinator finds and deletes the DNS records whose name
exactly equals the tunnel name (not the full public hostname), and — only
when the tunnel name contains no dot — additionally deletes every record
whose name starts with `"<tunnelName>."` or equals the tunnel name,
accumulating and returning the count of records successfully deleted;
finally the tunnel object is deleted. -/
theorem C4_teardown_dns_deletion (tname : String) (zoneId : Option String) (st : RunState)
    (hid : (st.cloud.zones.map (fun w => w.id)).Nodup)
    (hrec : ∀ z ∈ st.cloud.zones, (z.records.map (fun r => r.id)).Nodup) :
    ∃ st' n, delete_tunnel_and_dns noFaults tname zoneId st = .ok (st', n) ∧
      st'.cloud.zones = st.cloud.zones.map (zoneFilter tname) ∧
      n = (st.cloud.zones.map (zoneMatchCount tname)).sum ∧
      st'.cloud.tunnelExists = false := by
  unfold delete_tunnel_and_dns dtadCore
  simp only [noFaults_proj.1, noFaults_proj.2.1, noFaults_proj.2.2.2.2.2.2.1,
    noFaults_proj.2.2.2.2.2.2.2.1, Bool.false_eq_true, if_false, ite_false]
  cases hE : (st.cloud.zones.isEmpty && pyTruthyStr zoneId) with
  | false =>
    simp only [hE, Bool.false_eq_true, if_false, ite_false]
    obtain ⟨st2, heq2, hcloud2⟩ := processZones_nominal tname st.cloud.zones []
      { st with zoneListCalls := st.zoneListCalls + 1 } 0 rfl hid hrec
    rw [heq2]
    dsimp only
    refine ⟨_, _, rfl, ?_, ?_, ?_⟩
    · rw [deleteTunnelObj_spec]
      dsimp only
      rw [hcloud2]
      simp
    · omega
    · rw [deleteTunnelObj_spec]
  | true =>
    simp only [hE, if_true, ite_true]
    rw [Bool.and_eq_true] at hE
    obtain ⟨hEm, hTr⟩ := hE
    have hzones : st.cloud.zones = [] := by
      simpa using hEm
    cases zoneId with
    | none => simp [pyTruthyStr] at hTr
    | some zid =>
      simp only [fallbackZones, processZones]
      obtain ⟨st2, heqz, hcz⟩ := processZone_missing tname zid
        { st with zoneListCalls := st.zoneListCalls + 1 } 0
        (by unfold findZone; dsimp only; rw [hzones]; rfl)
      rw [heqz]
      dsimp only
      refine ⟨_, _, rfl, ?_, ?_, ?_⟩
      · rw [deleteTunnelObj_spec]
        dsimp only
        rw [hcz]
        dsimp only
        rw [hzones]
        rfl
      · simp [hzones]
      · rw [deleteTunnelObj_spec]


/-- C4 counterexample: with tunnel name `"my.app"` (containing a dot), a
record `"my.app.example.com"` whose name starts with `"my.app."` is NOT
deleted — the prefix scan is skipped because of the `"." not in
tunnel_name` guard and the exact-name query filters on `"my.app"` — so
teardown returns count 0 and the record survives, contradicting the
claim that every record whose name starts with `"<tunnelName>."` is
deleted. -/
theorem C4_counterexample :
    strStarts ("my.app" ++ ".") "my.app.example.com" = true ∧
    delete_tunnel_and_dns noFaults "my.app" (some "a2dbaff918c783a734197864e6cb7190")
        dottedNameState =
      .ok (⟨⟨[⟨"z1", "example.com", [⟨"r1", "my.app.example.com"⟩]⟩], false⟩,
        false, false, 1, 1, 0, 1⟩, 0) :=
  ⟨rfl, rfl⟩

/-- C4 witness: a zone with an exact-name match, a prefixed match, and an
unrelated record: exactly the two matches are deleted and counted. -/
theorem C4_teardown_dns_deletion_witness :
    ∃ st' n, delete_tunnel_and_dns noFaults "demo" (some "a2dbaff918c783a734197864e6cb7190")
        (⟨⟨[⟨"z1", "example.com",
            [⟨"r1", "demo.example.com"⟩, ⟨"r2", "other.example.com"⟩, ⟨"r3", "demo"⟩]⟩], true⟩,
          false, false, 0, 0, 0, 0⟩ : RunState) = .ok (st', n) ∧
      st'.cloud.zones = [⟨"z1", "example.com", [⟨"r2", "other.example.com"⟩]⟩] ∧
      n = 2 ∧
      st'.cloud.tunnelExists = false := by
  obtain ⟨st', n, heq, hz, hn, ht⟩ := C4_teardown_dns_deletion "demo"
    (some "a2dbaff918c783a734197864e6cb7190")
    (⟨⟨[⟨"z1", "example.com",
        [⟨"r1", "demo.example.com"⟩, ⟨"r2", "other.example.com"⟩, ⟨"r3", "demo"⟩]⟩], true⟩,
      false, false, 0, 0, 0, 0⟩ : RunState)
    (by decide) (by decide)
  refine ⟨st', n, heq, ?_, ?_, ht⟩
  · rw [hz]
    rfl
  · rw [hn]
    rfl

end Flare
